import Mathlib

/-!
# a6hub real-time build progress subsystem — verification development

Shallow embedding of the real-time build progress broadcast subsystem of
the a6hub platform: the LibreLane step detector on the worker side, the
WebSocket connection multiplexer on the API side, and the client-side
update protocol (`frontend/hooks/useJobWebSocket.ts`,
`frontend/app/projects/[id]/build/page.tsx`).

The backend worker module (`backend/app/workers/tasks.py`, holding
`detect_librelane_step` and the step table) and the WebSocket endpoint
(`backend/app/api/v1/websocket.py`) are not present in the source tree —
only their design documents are — so those two pieces are modelled from
the specification, as marked on each definition.  Everything else is
translated directly from the TypeScript sources.
-/

/-! ## Step Table and Step Detector (worker side) -/

/-- A pipeline step: name, display label and the case-insensitive trigger
substrings that identify it in the external tool's log output. -/
structure StepDef where
  name : String
  label : String
  patterns : List String
deriving Repr, DecidableEq

/-- Modelled from the spec: `backend/app/workers/tasks.py` is not in the
source tree.  The ten LibreLane pipeline steps in order (design doc
"LibreLane Steps", lines 207-219) with the trigger-pattern fragments
given in the doc's `step_patterns` excerpt (synthesis, placement,
routing are verbatim; the remaining steps use their documented names as
triggers). -/
def librelaneSteps : List StepDef :=
  [ ⟨"initialization", "Initialization", ["initializing", "setting up build environment"]⟩
  , ⟨"synthesis", "Synthesis", ["running synthesis", "yosys", "synthesizing"]⟩
  , ⟨"floorplan", "Floorplan", ["floorplan"]⟩
  , ⟨"placement", "Placement", ["placement", "global placement", "detailed placement"]⟩
  , ⟨"cts", "Clock Tree Synthesis", ["clock tree synthesis", "cts"]⟩
  , ⟨"routing", "Routing", ["routing", "global routing", "detailed routing"]⟩
  , ⟨"gds", "GDSII Generation", ["gds", "stream out"]⟩
  , ⟨"drc", "DRC", ["drc"]⟩
  , ⟨"lvs", "LVS", ["lvs", "netgen"]⟩
  , ⟨"completion", "Completion", ["flow complete"]⟩ ]

/-- Lower-case a string to a character list (the detector matches
case-insensitively). -/
def lowerStr (s : String) : List Char :=
  s.data.map Char.toLower

/-- Does `pat` occur as a contiguous substring of the character list? -/
def containsSub (pat : List Char) : List Char → Bool
  | [] => pat.isEmpty
  | c :: rest => pat.isPrefixOf (c :: rest) || containsSub pat rest

/-- A (lower-cased) line matches a step when it contains one of the
step's trigger substrings. -/
def lineMatches (line : List Char) (s : StepDef) : Bool :=
  s.patterns.any fun p => containsSub (lowerStr p) line

/-- Modelled from the spec: scan of the step table in index order; the
first step whose index lies strictly beyond `prev` and whose pattern the
line contains wins (§4.1: "scan the Step Table strictly forward from
previous_index+1; the first (lowest-index) match wins"). -/
def findStepFrom (line : List Char) (prev : Int) : Nat → List StepDef → Option Nat
  | _, [] => none
  | i, s :: rest =>
    if prev < (i : Int) && lineMatches line s then some i
    else findStepFrom line prev (i + 1) rest

/-- Modelled from the spec: `detect_librelane_step` — from a log line and
the previously confirmed step index (`-1` initially) compute the newly
detected step index, if any. -/
def detectStep (line : String) (prev : Int) : Option Nat :=
  findStepFrom (lowerStr line) prev 0 librelaneSteps

/-- Thread the detector over a list of lines starting from `prev`,
collecting the emitted step indices and the final confirmed index. -/
def runDetector (lines : List String) (prev : Int) : List Nat × Int :=
  match lines with
  | [] => ([], prev)
  | l :: rest =>
    match detectStep l prev with
    | some k =>
      let r := runDetector rest (k : Int)
      (k :: r.1, r.2)
    | none => runDetector rest prev

/-- Names of the steps emitted by a run of the detector from index `-1`. -/
def emittedNames (lines : List String) : List String :=
  (runDetector lines (-1)).1.map fun k => ((librelaneSteps[k]?).map StepDef.name).getD ""

/-- Modelled from the spec: on a transition from `prev` to `k` every step
with index in `(prev, k]` is marked completed (§4.1: "treat steps
(previous_index, k] as implicitly completed"). -/
def completedUpdate (completed : List String) (prev : Int) (k : Nat) : List String :=
  completed ++
    ((librelaneSteps.enum.filter fun p => decide (prev < (p.1 : Int)) && decide (p.1 ≤ k)).map
      fun p => p.2.name)

/-- Thread the detector over lines, also accumulating the completed-step
names as the worker does on each transition. -/
def runDetectorCompleted (lines : List String) (prev : Int) (completed : List String) :
    List String × Int :=
  match lines with
  | [] => (completed, prev)
  | l :: rest =>
    match detectStep l prev with
    | some k => runDetectorCompleted rest (k : Int) (completedUpdate completed prev k)
    | none => runDetectorCompleted rest prev completed

theorem findStepFrom_some_lt {line : List Char} {prev : Int} {i k : Nat}
    {l : List StepDef} (h : findStepFrom line prev i l = some k) :
    prev < (k : Int) ∧ i ≤ k := by
  induction l generalizing i with
  | nil => simp [findStepFrom] at h
  | cons s rest ih =>
    simp only [findStepFrom] at h
    split at h
    · rename_i hc
      cases h
      simp only [Bool.and_eq_true, decide_eq_true_eq] at hc
      exact ⟨hc.1, le_refl _⟩
    · have := ih h
      exact ⟨this.1, le_trans (Nat.le_succ i) this.2⟩

theorem findStepFrom_none {line : List Char} {prev : Int} {i : Nat}
    {l : List StepDef}
    (h : ∀ p ∈ l.enumFrom i, lineMatches line p.2 = true → (p.1 : Int) ≤ prev) :
    findStepFrom line prev i l = none := by
  induction l generalizing i with
  | nil => simp [findStepFrom]
  | cons s rest ih =>
    simp only [findStepFrom]
    have hs : ¬(prev < (i : Int) && lineMatches line s) = true := by
      simp only [Bool.and_eq_true, decide_eq_true_eq, not_and]
      intro hlt hm
      have := h (i, s) (by simp [List.enumFrom]) hm
      omega
    rw [if_neg hs]
    exact ih fun p hp hm => h p (by simp [List.enumFrom]; right; exact hp) hm

theorem detectStep_some_lt {line : String} {prev : Int} {k : Nat}
    (h : detectStep line prev = some k) : prev < (k : Int) :=
  (findStepFrom_some_lt h).1

theorem detectStep_none {line : String} {prev : Int}
    (h : ∀ p ∈ librelaneSteps.enum,
      lineMatches (lowerStr line) p.2 = true → (p.1 : Int) ≤ prev) :
    detectStep line prev = none :=
  findStepFrom_none h

theorem findStepFrom_some_matches {line : List Char} {prev : Int} {i k : Nat}
    {l : List StepDef} (h : findStepFrom line prev i l = some k) :
    ∃ s, l[k - i]? = some s ∧ lineMatches line s = true := by
  induction l generalizing i with
  | nil => simp [findStepFrom] at h
  | cons s rest ih =>
    simp only [findStepFrom] at h
    split at h
    · rename_i hc
      cases h
      simp only [Bool.and_eq_true, decide_eq_true_eq] at hc
      exact ⟨s, by simp, hc.2⟩
    · have hk := (findStepFrom_some_lt h).2
      obtain ⟨s', hs', hm⟩ := ih h
      refine ⟨s', ?_, hm⟩
      have : k - i = (k - (i + 1)) + 1 := by omega
      rw [this]
      simpa using hs'

theorem findStepFrom_some_min {line : List Char} {prev : Int} {i k : Nat}
    {l : List StepDef} (h : findStepFrom line prev i l = some k) :
    ∀ p ∈ l.enumFrom i, prev < (p.1 : Int) → p.1 < k → lineMatches line p.2 = false := by
  induction l generalizing i with
  | nil => simp [List.enumFrom]
  | cons s rest ih =>
    intro p hp hlt hpk
    simp only [findStepFrom] at h
    simp only [List.enumFrom, List.mem_cons] at hp
    split at h
    · rename_i hc
      cases h
      rcases hp with hp | hp
      · subst hp; omega
      · have := (List.mem_enumFrom hp).1
        omega
    · rename_i hc
      rcases hp with hp | hp
      · subst hp
        by_contra hmt
        have hm : lineMatches line s = true := by
          revert hmt; cases lineMatches line s <;> simp
        exact hc (by simp [hlt, hm])
      · exact ih h p hp hlt hpk

theorem runDetector_mono (lines : List String) (prev : Int) :
    List.Pairwise (· ≤ ·) (runDetector lines prev).1 ∧
      ∀ x ∈ (runDetector lines prev).1, prev < (x : Int) := by
  induction lines generalizing prev with
  | nil => simp [runDetector]
  | cons l rest ih =>
    simp only [runDetector]
    cases hd : detectStep l prev with
    | none => exact ih prev
    | some k =>
      have hk := detectStep_some_lt hd
      obtain ⟨hpair, hgt⟩ := ih (k : Int)
      refine ⟨List.pairwise_cons.mpr ⟨fun x hx => ?_, hpair⟩, ?_⟩
      · have := hgt x hx
        exact_mod_cast le_of_lt (by exact_mod_cast this)
      · intro x hx
        rcases List.mem_cons.mp hx with rfl | hx
        · exact hk
        · exact lt_trans hk (hgt x hx)

/-- C1: threading `previous_index` from `-1`, the sequence of step
indices the Step Detector emits over any sequence of log lines is
non-decreasing; and for a single call whose line matches trigger
patterns only at indices at most `previous_index`, no transition occurs
and the threaded state (hence `current_step`) is unchanged. -/
theorem detector_monotone_no_regress :
    (∀ lines : List String, List.Pairwise (· ≤ ·) (runDetector lines (-1)).1) ∧
    (∀ (line : String) (prev : Int) (rest : List String),
      (∀ p ∈ librelaneSteps.enum,
        lineMatches (lowerStr line) p.2 = true → (p.1 : Int) ≤ prev) →
      detectStep line prev = none ∧
        runDetector (line :: rest) prev = runDetector rest prev) := by
  constructor
  · intro lines
    exact (runDetector_mono lines (-1)).1
  · intro line prev rest h
    have hd := detectStep_none h
    exact ⟨hd, by simp [runDetector, hd]⟩

/-- Witness for C1 at a concrete input: a line whose only trigger match
(synthesis, index 1) lies at an index not beyond the confirmed index 5
produces no transition and leaves the run unchanged. -/
theorem detector_monotone_no_regress_witness :
    detectStep "running synthesis pass" 5 = none ∧
      runDetector ["running synthesis pass", "routing nets"] 5 =
        runDetector ["routing nets"] 5 :=
  detector_monotone_no_regress.2 "running synthesis pass" 5 ["routing nets"] (by decide)

/-- C2: whenever the detector fires at index `k` from confirmed index
`prev`, then `prev < k`, step `k`'s patterns match the line, and no step
with index in `(prev, k)` matches (the lowest-index match beyond `prev`
wins); and on the four sample lines the emitted transitions are exactly
synthesis, placement, routing, in order, each once, with steps
`(prev, k]` marked completed at each transition. -/
theorem detector_first_match_wins :
    (∀ (line : String) (prev : Int) (k : Nat), detectStep line prev = some k →
      prev < (k : Int) ∧
      (∃ s, librelaneSteps[k]? = some s ∧ lineMatches (lowerStr line) s = true) ∧
      (∀ p ∈ librelaneSteps.enum, prev < (p.1 : Int) → p.1 < k →
        lineMatches (lowerStr line) p.2 = false)) ∧
    emittedNames ["starting up", "running synthesis pass",
        "global placement begin", "routing nets"] =
      ["synthesis", "placement", "routing"] ∧
    runDetectorCompleted ["starting up", "running synthesis pass",
        "global placement begin", "routing nets"] (-1) [] =
      (["initialization", "synthesis", "floorplan", "placement", "cts", "routing"], 5) := by
  refine ⟨fun line prev k h => ?_, by decide, by decide⟩
  simp only [detectStep] at h
  refine ⟨(findStepFrom_some_lt h).1, ?_, ?_⟩
  · simpa using findStepFrom_some_matches h
  · intro p hp hlt hpk
    exact findStepFrom_some_min h p (by simpa [List.enum] using hp) hlt hpk

/-- Witness for C2 at a concrete input: on the line "yosys" from the
initial index `-1` the detector fires at index 1 (synthesis); the
general conjunct yields monotonicity, a match at 1, and no earlier
match. -/
theorem detector_first_match_wins_witness :
    (-1 : Int) < ((1 : Nat) : Int) ∧
      (∃ s, librelaneSteps[(1 : Nat)]? = some s ∧
        lineMatches (lowerStr "yosys") s = true) ∧
      (∀ p ∈ librelaneSteps.enum, (-1 : Int) < (p.1 : Int) → p.1 < 1 →
        lineMatches (lowerStr "yosys") p.2 = false) :=
  detector_first_match_wins.1 "yosys" (-1) 1 (by decide)

/-! ## Client Update Protocol (`frontend/hooks/useJobWebSocket.ts`)

State machine embedding of the `useJobWebSocket` hook.  `enabled` is the
hook's `enabled` option; the build page wires it to
`buildStatus.status === 'running'`, so `enabled = true` embeds "the
caller is interested and the job is not terminal".  The browser
WebSocket is modelled by whether a socket object is held (`wsPresent`)
and its ready state; closing a socket with code 1000 makes the
environment deliver a close event with code 1000. -/

/-- `maxReconnectAttempts = 5` in the hook. -/
def maxReconnectAttempts : Nat := 5

/-- `reconnectDelay = 3000` milliseconds (the backoff base) in the hook. -/
def reconnectDelay : Nat := 3000

/-- `setInterval(sendPing, 30000)` — the keep-alive period. -/
def pingIntervalMs : Nat := 30000

/-- Ready state of the browser WebSocket object. -/
inductive WsReadyState | connecting | wsOpen | closing | wsClosed
deriving DecidableEq, Repr

/-- The hook's connection-relevant state: the socket ref, the
`isConnected` and `connectionError` React state, the pending reconnect
timer (with its delay), the attempt counter ref, and the `enabled`
option plus token availability. -/
structure ClientState where
  wsPresent : Bool
  readyState : WsReadyState
  isConnected : Bool
  connectionError : Option String
  reconnectTimer : Option Nat
  reconnectAttempts : Nat
  enabled : Bool
  hasToken : Bool
deriving DecidableEq, Repr

/-- `connect`: returns unchanged if disabled or a socket is already
open; errors without a token; otherwise creates a new socket (readying
the handlers).  It touches neither the attempt counter nor the timer. -/
def connect (s : ClientState) : ClientState :=
  if s.enabled = false ∨ (s.wsPresent = true ∧ s.readyState = .wsOpen) then s
  else if s.hasToken = false then
    { s with connectionError := some "No authentication token found" }
  else
    { s with wsPresent := true, readyState := .connecting }

/-- `ws.onopen`: mark connected, clear the error, reset the attempt
counter to 0. -/
def onOpen (s : ClientState) : ClientState :=
  { s with readyState := .wsOpen, isConnected := true,
           connectionError := none, reconnectAttempts := 0 }

/-- `ws.onclose`: clear `isConnected` and the socket ref; if the closure
was abnormal (code ≠ 1000) while enabled and attempts remain, increment
the counter and schedule a reconnect after `reconnectDelay × attempts`;
otherwise, if the budget is exhausted, set the persistent error. -/
def onClose (code : Nat) (s : ClientState) : ClientState :=
  let s1 := { s with isConnected := false, wsPresent := false, readyState := .wsClosed }
  if code ≠ 1000 ∧ s1.enabled = true ∧ s1.reconnectAttempts < maxReconnectAttempts then
    { s1 with reconnectAttempts := s1.reconnectAttempts + 1,
              reconnectTimer := some (reconnectDelay * (s1.reconnectAttempts + 1)) }
  else if maxReconnectAttempts ≤ s1.reconnectAttempts then
    { s1 with connectionError := some "Failed to reconnect after multiple attempts" }
  else s1

/-- The scheduled reconnect timeout firing: clear the timer and call
`connect`. -/
def timerFire (s : ClientState) : ClientState :=
  match s.reconnectTimer with
  | none => s
  | some _ => connect { s with reconnectTimer := none }

/-- `disconnect`: synchronously clear any pending reconnect timer; if a
socket is held, close it with code 1000 ("Client disconnect") and drop
the ref; clear `isConnected`.  Returns the close code sent on the
socket, if any. -/
def disconnect (s : ClientState) : ClientState × Option Nat :=
  let s1 := { s with reconnectTimer := none }
  if s1.wsPresent = true then
    ({ s1 with wsPresent := false, readyState := .closing, isConnected := false }, some 1000)
  else
    ({ s1 with isConnected := false }, none)

/-- `sendPing`: send the frame "ping" when the socket is open. -/
def sendPing (s : ClientState) : Option String :=
  if s.wsPresent = true ∧ s.readyState = .wsOpen then some "ping" else none

/-- Frames sent by `n` firings of the keep-alive interval in state `s`. -/
def heartbeatRun (s : ClientState) : Nat → List String
  | 0 => []
  | n + 1 =>
    (match sendPing s with
     | some f => [f]
     | none => []) ++ heartbeatRun s n

/-- A run of `n` consecutive abnormal closures (code 1006): each closure
is handled by `ws.onclose`, the delay it schedules (if any) is recorded,
and the pending timer then fires (invoking `connect`). -/
def closuresRun : Nat → ClientState → ClientState × List Nat
  | 0, s => (s, [])
  | n + 1, s =>
    let s1 := onClose 1006 s
    let ds :=
      match s1.reconnectTimer with
      | some d => [d]
      | none => []
    let r := closuresRun n (timerFire s1)
    (r.1, ds ++ r.2)

/-- The hook's state right after a successful connect and open, with a
token present and the job running. -/
def connectedInit : ClientState :=
  onOpen (connect
    { wsPresent := false, readyState := .wsClosed, isConnected := false,
      connectionError := none, reconnectTimer := none, reconnectAttempts := 0,
      enabled := true, hasToken := true })

theorem onClose_normal (s : ClientState) :
    (onClose 1000 s).wsPresent = false ∧
      (onClose 1000 s).reconnectTimer = s.reconnectTimer := by
  simp only [onClose]
  split
  · rename_i hc
    exact absurd rfl hc.1
  · split <;> exact ⟨rfl, rfl⟩

/-- C3: on an abnormal closure (code ≠ 1000) while enabled (the page
sets `enabled` exactly while the job is running, i.e. not terminal) with
attempts remaining, the hook schedules reconnect attempt `n+1` after
`reconnectDelay × (n+1)`; the counter never exceeds 5; once it reaches
5, a further abnormal closure schedules nothing and sets the persistent
error; and a run of 6 consecutive abnormal closures from a fresh
connection makes exactly 5 attempts with strictly increasing delays
3000..15000, ending in the persistent error with no timer pending. -/
theorem reconnect_backoff_budget :
    (∀ (code : Nat) (s : ClientState), code ≠ 1000 → s.enabled = true →
      s.reconnectAttempts < maxReconnectAttempts →
      (onClose code s).reconnectAttempts = s.reconnectAttempts + 1 ∧
        (onClose code s).reconnectTimer =
          some (reconnectDelay * (s.reconnectAttempts + 1))) ∧
    (∀ (code : Nat) (s : ClientState), s.reconnectAttempts ≤ maxReconnectAttempts →
      (onClose code s).reconnectAttempts ≤ maxReconnectAttempts) ∧
    (∀ (code : Nat) (s : ClientState), s.reconnectAttempts = maxReconnectAttempts →
      (onClose code s).reconnectTimer = s.reconnectTimer ∧
        (onClose code s).connectionError =
          some "Failed to reconnect after multiple attempts") ∧
    ((closuresRun 6 connectedInit).2 = [3000, 6000, 9000, 12000, 15000] ∧
      List.Chain' (· < ·) (closuresRun 6 connectedInit).2 ∧
      (closuresRun 6 connectedInit).1.connectionError =
        some "Failed to reconnect after multiple attempts" ∧
      (closuresRun 6 connectedInit).1.reconnectAttempts = maxReconnectAttempts ∧
      (closuresRun 6 connectedInit).1.reconnectTimer = none) := by
  refine ⟨?_, ?_, ?_, ?_⟩
  · intro code s hc he hlt
    simp [onClose, hc, he, hlt]
  · intro code s h
    simp only [onClose]
    split
    · rename_i hc
      simp only
      omega
    · split <;> simpa using h
  · intro code s h
    simp [onClose, h]
  · have h2 : (closuresRun 6 connectedInit).2 = [3000, 6000, 9000, 12000, 15000] := by
      decide
    refine ⟨h2, ?_, by decide, by decide, by decide⟩
    rw [h2]
    simp [List.chain'_cons]

/-- Witness for C3 at a concrete input: the first abnormal closure from
the fresh connected state schedules attempt 1 after 3000 ms. -/
theorem reconnect_backoff_budget_witness :
    (onClose 1006 connectedInit).reconnectAttempts =
        connectedInit.reconnectAttempts + 1 ∧
      (onClose 1006 connectedInit).reconnectTimer =
        some (reconnectDelay * (connectedInit.reconnectAttempts + 1)) :=
  reconnect_backoff_budget.1 1006 connectedInit (by decide) (by decide) (by decide)

/-- The state the client reaches after exhausting its reconnect budget:
no socket, counter at 5, persistent error set. -/
def persistentErrorState : ClientState :=
  { wsPresent := false, readyState := .wsClosed, isConnected := false,
    connectionError := some "Failed to reconnect after multiple attempts",
    reconnectTimer := none, reconnectAttempts := maxReconnectAttempts,
    enabled := true, hasToken := true }

/-- C4 counterexample: the exposed manual reconnect is `connect`, which
does not touch the attempt counter — immediately after the call (before
any connection outcome) the counter is still 5, not 0. -/
theorem manual_reconnect_no_early_reset_cex :
    persistentErrorState = (closuresRun 6 connectedInit).1 ∧
      (connect persistentErrorState).reconnectAttempts = 5 ∧ (5 : Nat) ≠ 0 := by
  refine ⟨by decide, by decide, by decide⟩

/-- C4 (amended): calling the exposed manual reconnect (`connect`) from
a state with no open socket starts a new connection attempt and leaves
the attempt counter unchanged; the counter is reset to zero only when
the new connection opens (`ws.onopen`), which then re-enables the full
budget of automatic reconnect attempts. -/
theorem manual_reconnect_resets_on_open :
    ∀ s : ClientState, s.enabled = true → s.hasToken = true → s.wsPresent = false →
      (connect s).wsPresent = true ∧
      (connect s).reconnectAttempts = s.reconnectAttempts ∧
      (onOpen (connect s)).reconnectAttempts = 0 := by
  intro s he ht hw
  simp [connect, onOpen, he, ht, hw]

/-- Witness for C4 (amended) at the concrete exhausted-error state. -/
theorem manual_reconnect_resets_on_open_witness :
    (connect persistentErrorState).wsPresent = true ∧
      (connect persistentErrorState).reconnectAttempts =
        persistentErrorState.reconnectAttempts ∧
      (onOpen (connect persistentErrorState)).reconnectAttempts = 0 :=
  manual_reconnect_resets_on_open persistentErrorState rfl rfl rfl

/-- Events deliverable to the hook after `disconnect`: the close event
of the socket it closed (which carries the normal code 1000) and any
timer firing. -/
inductive PostEv | closeEvt | timerEvt
deriving DecidableEq, Repr

/-- Apply a post-disconnect event to the client state. -/
def applyPost : PostEv → ClientState → ClientState
  | .closeEvt, s => onClose 1000 s
  | .timerEvt, s => timerFire s

theorem foldPost_invariant (evs : List PostEv) (s : ClientState)
    (h : s.wsPresent = false ∧ s.reconnectTimer = none) :
    (evs.foldl (fun t e => applyPost e t) s).wsPresent = false ∧
      (evs.foldl (fun t e => applyPost e t) s).reconnectTimer = none := by
  induction evs generalizing s with
  | nil => simpa using h
  | cons e rest ih =>
    simp only [List.foldl_cons]
    apply ih
    cases e
    · exact ⟨(onClose_normal s).1, (onClose_normal s).2.trans h.2⟩
    · have he : applyPost .timerEvt s = s := by
        simp [applyPost, timerFire, h.2]
      rw [he]
      exact h

/-- C5: `disconnect` synchronously cancels any pending reconnect timer
and, when a socket is held, closes it with the normal-closure code 1000;
thereafter, under every sequence of deliverable events (the code-1000
close event of the closed socket and timer firings), the client never
holds a socket again and never has a reconnect scheduled — no new
connection is opened until an explicit `connect`. -/
theorem disconnect_suppresses_reconnect :
    ∀ (s : ClientState) (evs : List PostEv),
      (disconnect s).1.reconnectTimer = none ∧
      (s.wsPresent = true → (disconnect s).2 = some 1000) ∧
      (evs.foldl (fun t e => applyPost e t) (disconnect s).1).wsPresent = false ∧
      (evs.foldl (fun t e => applyPost e t) (disconnect s).1).reconnectTimer = none := by
  intro s evs
  have hbase : (disconnect s).1.wsPresent = false ∧
      (disconnect s).1.reconnectTimer = none := by
    simp only [disconnect]
    split
    · exact ⟨rfl, rfl⟩
    · rename_i hw
      exact ⟨by simpa using hw, rfl⟩
  have hfold := foldPost_invariant evs (disconnect s).1 hbase
  refine ⟨hbase.2, ?_, hfold.1, hfold.2⟩
  intro hw
  simp [disconnect, hw]

/-- A connected client holding a pending reconnect timer, to witness the
disconnect claim. -/
def liveWithTimer : ClientState :=
  { wsPresent := true, readyState := .wsOpen, isConnected := true,
    connectionError := none, reconnectTimer := some 9000, reconnectAttempts := 3,
    enabled := true, hasToken := true }

/-- Witness for C5 at a concrete input: disconnecting a live client with
a pending timer cancels the timer, closes with code 1000, and the
subsequent close event and a timer firing open no connection. -/
theorem disconnect_suppresses_reconnect_witness :
    (disconnect liveWithTimer).1.reconnectTimer = none ∧
      (disconnect liveWithTimer).2 = some 1000 ∧
      ([PostEv.closeEvt, PostEv.timerEvt].foldl (fun t e => applyPost e t)
        (disconnect liveWithTimer).1).wsPresent = false :=
  ⟨(disconnect_suppresses_reconnect liveWithTimer []).1,
   (disconnect_suppresses_reconnect liveWithTimer []).2.1 rfl,
   (disconnect_suppresses_reconnect liveWithTimer
      [PostEv.closeEvt, PostEv.timerEvt]).2.2.1⟩

/-! ## Wire messages and client dispatch (`useJobWebSocket` onmessage) -/

/-- A JSON value, as delivered by the browser's JSON parse (the parse
itself is a browser primitive; a frame that fails to parse is modelled
as the absence of a value). -/
inductive Json where
  | jnull
  | jbool (b : Bool)
  | jnum (n : Int)
  | jstr (s : String)
  | jarr (xs : List Json)
  | jobj (fields : List (String × Json))

/-- Object field lookup, `undefined` when absent or not an object. -/
def Json.getField : Json → String → Option Json
  | .jobj fields, k => (fields.find? fun p => p.1 == k).map Prod.snd
  | _, _ => none

/-- Read a JSON value as a string. -/
def Json.asStr : Json → Option String
  | .jstr s => some s
  | _ => none

/-- Read a JSON value as a non-negative integer. -/
def Json.asNat : Json → Option Nat
  | .jnum n => if n < 0 then none else some n.toNat
  | _ => none

/-- Read a JSON value as an array of strings. -/
def Json.asStrList : Json → Option (List String)
  | .jarr xs =>
    xs.foldr
      (fun j acc =>
        match j.asStr, acc with
        | some s, some l => some (s :: l)
        | _, _ => none)
      (some [])
  | _ => none

/-- The closed union of wire message kinds (`JobUpdate.type` in
`useJobWebSocket.ts`). -/
inductive MsgType
  | connected | status | progress | log | step | complete | error | pong
deriving DecidableEq, Repr

/-- The type tags of the wire format, in the order declared. -/
def msgTypeStrings : List String :=
  ["connected", "status", "progress", "log", "step", "complete", "error", "pong"]

/-- Map a wire `type` string to the closed union; anything else is
unrecognized. -/
def parseMsgType (s : String) : Option MsgType :=
  if s = "connected" then some .connected
  else if s = "status" then some .status
  else if s = "progress" then some .progress
  else if s = "log" then some .log
  else if s = "step" then some .step
  else if s = "complete" then some .complete
  else if s = "error" then some .error
  else if s = "pong" then some .pong
  else none

/-- The `data` payload of a wire message (all fields optional, as in the
`JobUpdate` interface). -/
structure UpdateData where
  job_id : Option Nat
  status : Option String
  progress : Option Nat
  current_step : Option String
  completed_steps : Option (List String)
  log_line : Option String
  step_name : Option String
  step_label : Option String
  message : Option String
  error_message : Option String
deriving DecidableEq, Repr

/-- A decoded wire message: `{type, data, timestamp}`. -/
structure JobUpdate where
  type : MsgType
  data : UpdateData
  timestamp : Option String
deriving DecidableEq, Repr

/-- Extract the `data` payload fields from a JSON object. -/
def extractData (j : Json) : UpdateData :=
  { job_id := (j.getField "job_id").bind Json.asNat
  , status := (j.getField "status").bind Json.asStr
  , progress := (j.getField "progress").bind Json.asNat
  , current_step := (j.getField "current_step").bind Json.asStr
  , completed_steps := (j.getField "completed_steps").bind Json.asStrList
  , log_line := (j.getField "log_line").bind Json.asStr
  , step_name := (j.getField "step_name").bind Json.asStr
  , step_label := (j.getField "step_label").bind Json.asStr
  , message := (j.getField "message").bind Json.asStr
  , error_message := (j.getField "error_message").bind Json.asStr }

/-- Decode a parsed JSON frame into a wire message: the `type` field
must be a string with one of the recognized tags; `data` and
`timestamp` are read from the same object. -/
def decodeUpdate (j : Json) : Option JobUpdate :=
  match (j.getField "type").bind Json.asStr with
  | none => none
  | some t =>
    match parseMsgType t with
    | none => none
    | some mt =>
      some { type := mt
           , data := extractData ((j.getField "data").getD (Json.jobj []))
           , timestamp := (j.getField "timestamp").bind Json.asStr }

/-- The application callback the hook invokes for a message, with the
arguments it passes. -/
inductive Callback
  | statusChange (status : String)
  | progressUpdate (progress : Nat) (step : String) (completed : List String)
  | logUpdate (line : String)
  | stepChange (name label : String)
  | completeCb (status : String) (message : Option String)
  | errorCb (msg : String)
deriving DecidableEq, Repr

/-- A JavaScript truthiness guard on an optional string: present and
non-empty. -/
def truthyStr : Option String → Option String
  | some s => if s = "" then none else some s
  | none => none

/-- The hook's `onmessage` switch: which callback (if any) a decoded
message invokes, with which arguments.  Guards mirror the code's
truthiness tests (`update.data.status && ...` etc.); `progress` is
guarded by an explicit `!== undefined` check. -/
def dispatch (u : JobUpdate) : Option Callback :=
  match u.type with
  | .connected => none
  | .status => (truthyStr u.data.status).map Callback.statusChange
  | .progress =>
    match u.data.progress with
    | some p =>
      some (.progressUpdate p (u.data.current_step.getD "") (u.data.completed_steps.getD []))
    | none => none
  | .log => (truthyStr u.data.log_line).map Callback.logUpdate
  | .step =>
    match truthyStr u.data.step_name with
    | some n => some (.stepChange n ((truthyStr u.data.step_label).getD n))
    | none => none
  | .complete =>
    match truthyStr u.data.status with
    | some st => some (.completeCb st u.data.message)
    | none => none
  | .error => (truthyStr u.data.error_message).map Callback.errorCb
  | .pong => none

/-- The whole `ws.onmessage` handler: a frame that fails to parse
(`JSON.parse` threw; the catch only logs) or fails to decode produces no
callback; the handler itself never mutates the hook's connection
state. -/
def onMessage (parsed : Option Json) (s : ClientState) : ClientState × Option Callback :=
  match parsed with
  | none => (s, none)
  | some j =>
    match decodeUpdate j with
    | none => (s, none)
    | some u => (s, dispatch u)

/-! ## Build page state (`frontend/app/projects/[id]/build/page.tsx`) -/

/-- An entry of `progress_data.steps_info`. -/
structure StepInfo where
  name : String
  label : String
  description : String
deriving DecidableEq, Repr

/-- The `progress_data` object of the page's `BuildStatus`. -/
structure ProgressData where
  current_step : String
  progress_percent : Option Nat
  completed_steps : Option (List String)
  steps_info : Option (List StepInfo)
deriving DecidableEq, Repr

/-- The page's `BuildStatus` React state (fields the progress handler
touches or preserves). -/
structure BuildStatusState where
  job_id : Nat
  status : String
  current_step : Option String
  progress_data : Option ProgressData
  logs : Option String
deriving DecidableEq, Repr

/-- `BuildPage.onProgressUpdate`: overwrite `current_step` and
`progress_data` with the event's absolute values, carrying over the
previous `steps_info` (or `[]` when absent). -/
def onProgressUpdate (p : Nat) (step : String) (cs : List String) :
    Option BuildStatusState → Option BuildStatusState
  | none => none
  | some prev => some { prev with
      current_step := some step,
      progress_data := some {
        current_step := step,
        progress_percent := some p,
        completed_steps := some cs,
        steps_info := some ((prev.progress_data.bind ProgressData.steps_info).getD []) } }

/-- The hook's `case progress` wired to the page handler: guarded by
`progress !== undefined`, passing `current_step ||` the empty string and
`completed_steps ||` the empty list. -/
def applyProgressEvent (d : UpdateData) (bs : Option BuildStatusState) :
    Option BuildStatusState :=
  match d.progress with
  | some p => onProgressUpdate p (d.current_step.getD "") (d.completed_steps.getD []) bs
  | none => bs

/-- C6: a progress event is applied to local state as absolute values
(percent, current step, completed-steps list), so applying the same
event twice yields exactly the state of applying it once. -/
theorem progress_event_idempotent :
    ∀ (d : UpdateData) (bs : Option BuildStatusState),
      applyProgressEvent d (applyProgressEvent d bs) = applyProgressEvent d bs := by
  intro d bs
  cases hp : d.progress with
  | none => simp [applyProgressEvent, hp]
  | some p =>
    cases bs with
    | none => simp [applyProgressEvent, hp, onProgressUpdate]
    | some prev => simp [applyProgressEvent, hp, onProgressUpdate]

/-- C7: the keep-alive interval is the fixed 30000 ms; while connected
(a socket is held and open) each interval tick sends exactly one "ping"
frame, so `n` ticks send exactly `n` pings; and a received pong message
invokes no application callback while the message handler never changes
the hook's state. -/
theorem heartbeat_ping_pong :
    pingIntervalMs = 30000 ∧
    (∀ s : ClientState, s.wsPresent = true → s.readyState = .wsOpen →
      sendPing s = some "ping" ∧ ∀ n, heartbeatRun s n = List.replicate n "ping") ∧
    (∀ (d : UpdateData) (ts : Option String), dispatch ⟨.pong, d, ts⟩ = none) ∧
    (∀ (p : Option Json) (s : ClientState), (onMessage p s).1 = s) := by
  refine ⟨rfl, ?_, ?_, ?_⟩
  · intro s hw hr
    have hs : sendPing s = some "ping" := by simp [sendPing, hw, hr]
    refine ⟨hs, ?_⟩
    intro n
    induction n with
    | zero => rfl
    | succ n ih => simp [heartbeatRun, hs, ih, List.replicate_succ]
  · intro d ts
    rfl
  · intro p s
    cases p with
    | none => rfl
    | some j =>
      simp only [onMessage]
      split <;> rfl

/-- Witness for C7 at a concrete input: the freshly connected client
sends "ping" on a tick, and three ticks send exactly three pings. -/
theorem heartbeat_ping_pong_witness :
    sendPing connectedInit = some "ping" ∧
      heartbeatRun connectedInit 3 = List.replicate 3 "ping" :=
  ⟨(heartbeat_ping_pong.2.1 connectedInit (by decide) (by decide)).1,
   (heartbeat_ping_pong.2.1 connectedInit (by decide) (by decide)).2 3⟩

/-- The sample progress wire message of the design document. -/
def sampleProgressJson : Json :=
  .jobj [ ("type", .jstr "progress")
        , ("data", .jobj [ ("progress", .jnum 45)
                         , ("current_step", .jstr "synthesis")
                         , ("completed_steps",
                            .jarr [.jstr "initialization", .jstr "verilog_copy"]) ])
        , ("timestamp", .jstr "2025-01-06T12:00:01Z") ]

/-- The decoded form of `sampleProgressJson`. -/
def sampleProgressUpdate : JobUpdate :=
  { type := .progress
  , data := { job_id := none, status := none, progress := some 45,
              current_step := some "synthesis",
              completed_steps := some ["initialization", "verilog_copy"],
              log_line := none, step_name := none, step_label := none,
              message := none, error_message := none }
  , timestamp := some "2025-01-06T12:00:01Z" }

/-- C8: every wire message the client consumes is a JSON object of shape
`{type, data, timestamp}`; the recognized `type` tags are exactly the
eight kinds connected, status, progress, log, step, complete, error,
pong; and each kind's dispatch reads exactly its per-type payload fields
(log: log_line; step: step_name, step_label; complete: status, message;
error: error_message; progress: progress, current_step,
completed_steps; status: status; connected and pong carry no callback
payload).  The doc's sample progress message decodes accordingly. -/
theorem wire_message_shape :
    (∀ t : String, (parseMsgType t).isSome = true ↔ t ∈ msgTypeStrings) ∧
    (∀ (j : Json) (u : JobUpdate), decodeUpdate j = some u →
      ∃ t, j.getField "type" = some (.jstr t) ∧ parseMsgType t = some u.type) ∧
    (∀ (d d' : UpdateData) (ts ts' : Option String), d.log_line = d'.log_line →
      dispatch ⟨.log, d, ts⟩ = dispatch ⟨.log, d', ts'⟩) ∧
    (∀ (d d' : UpdateData) (ts ts' : Option String),
      d.step_name = d'.step_name → d.step_label = d'.step_label →
      dispatch ⟨.step, d, ts⟩ = dispatch ⟨.step, d', ts'⟩) ∧
    (∀ (d d' : UpdateData) (ts ts' : Option String),
      d.status = d'.status → d.message = d'.message →
      dispatch ⟨.complete, d, ts⟩ = dispatch ⟨.complete, d', ts'⟩) ∧
    (∀ (d d' : UpdateData) (ts ts' : Option String),
      d.error_message = d'.error_message →
      dispatch ⟨.error, d, ts⟩ = dispatch ⟨.error, d', ts'⟩) ∧
    (∀ (d d' : UpdateData) (ts ts' : Option String),
      d.progress = d'.progress → d.current_step = d'.current_step →
      d.completed_steps = d'.completed_steps →
      dispatch ⟨.progress, d, ts⟩ = dispatch ⟨.progress, d', ts'⟩) ∧
    (∀ (d d' : UpdateData) (ts ts' : Option String), d.status = d'.status →
      dispatch ⟨.status, d, ts⟩ = dispatch ⟨.status, d', ts'⟩) ∧
    (∀ (d : UpdateData) (ts : Option String),
      dispatch ⟨.connected, d, ts⟩ = none ∧ dispatch ⟨.pong, d, ts⟩ = none) ∧
    decodeUpdate sampleProgressJson = some sampleProgressUpdate := by
  refine ⟨?_, ?_, ?_, ?_, ?_, ?_, ?_, ?_, ?_, by rfl⟩
  · intro t
    simp only [parseMsgType, msgTypeStrings, List.mem_cons, List.not_mem_nil, or_false]
    split_ifs with h1 h2 h3 h4 h5 h6 h7 h8 <;> simp_all
  · intro j u h
    simp only [decodeUpdate] at h
    split at h
    · exact absurd h (by simp)
    · rename_i t hbind
      split at h
      · exact absurd h (by simp)
      · rename_i mt hmt
        obtain ⟨jv, hjv, hstr⟩ := Option.bind_eq_some.mp hbind
        cases jv <;> simp only [Json.asStr] at hstr <;> cases hstr
        cases h
        exact ⟨_, hjv, hmt⟩
  · intro d d' ts ts' h
    simp only [dispatch]
    rw [h]
  · intro d d' ts ts' h1 h2
    simp only [dispatch]
    rw [h1, h2]
  · intro d d' ts ts' h1 h2
    simp only [dispatch]
    rw [h1, h2]
  · intro d d' ts ts' h
    simp only [dispatch]
    rw [h]
  · intro d d' ts ts' h1 h2 h3
    simp only [dispatch]
    rw [h1, h2, h3]
  · intro d d' ts ts' h
    simp only [dispatch]
    rw [h]
  · intro d ts
    exact ⟨rfl, rfl⟩

/-- Witness for C8 at a concrete input: "log" is a recognized tag
because it is in the eight-kind list. -/
theorem wire_message_shape_witness : (parseMsgType "log").isSome = true :=
  (wire_message_shape.1 "log").mpr (by decide)

/-- C10: an inbound frame that is not valid JSON (the parse threw and
the catch only logs), or that decodes to none of the recognized events,
invokes no application callback and leaves the hook state — including
the open connection — unchanged. -/
theorem malformed_frame_ignored :
    (∀ s : ClientState, onMessage none s = (s, none)) ∧
    (∀ (j : Json) (s : ClientState), decodeUpdate j = none →
      onMessage (some j) s = (s, none)) ∧
    (∀ (p : Option Json) (s : ClientState),
      (onMessage p s).1.wsPresent = s.wsPresent ∧
        (onMessage p s).1.isConnected = s.isConnected) := by
  refine ⟨fun s => rfl, ?_, ?_⟩
  · intro j s h
    simp [onMessage, h]
  · intro p s
    cases p with
    | none => exact ⟨rfl, rfl⟩
    | some j =>
      simp only [onMessage]
      split <;> exact ⟨rfl, rfl⟩

/-- Witness for C10 at a concrete input: a frame that parses to a bare
string (no `{type, data}` object) is ignored by the connected client. -/
theorem malformed_frame_ignored_witness :
    onMessage (some (.jstr "garbage")) connectedInit = (connectedInit, none) :=
  malformed_frame_ignored.2.1 (.jstr "garbage") connectedInit rfl

/-! ## Connection Multiplexer (API side) -/

/-- The persisted Job snapshot the endpoint reads for its initial
broadcast. -/
structure JobRecord where
  id : Nat
  status : String
  current_step : Option String
  progress_percent : Nat
deriving DecidableEq, Repr

/-- An event delivered to a viewer connection: the initial Connected
event built from the Job snapshot, or an event relayed from the
broker. -/
inductive ServerEvent
  | connectedEvt (job_id : Nat) (status : String) (current_step : Option String)
      (progress : Nat)
  | relayedEvt (payload : String)
deriving DecidableEq, Repr

/-- A registered viewer connection with the events sent to it so far. -/
structure ViewerConn where
  connId : Nat
  jobId : Nat
  sent : List ServerEvent
deriving DecidableEq, Repr

/-- The multiplexer's registry. -/
structure MuxState where
  conns : List ViewerConn
deriving DecidableEq, Repr

/-- Modelled from the spec: `backend/app/api/v1/websocket.py` and
`backend/app/websockets/manager.py` are not in the source tree.
`connect(job_id, connection, user)`: on authorization success, register
the connection and immediately send it a Connected event built from the
current persisted Job snapshot (§4.4; design doc: "Initial state
broadcast on connection"); on denial (or a missing job) register
nothing. -/
def muxConnect (store : Nat → Option JobRecord) (authorized : Bool)
    (jobId connId : Nat) (m : MuxState) : MuxState :=
  if authorized = true then
    match store jobId with
    | some job =>
      { conns := m.conns ++
          [⟨connId, jobId,
            [ServerEvent.connectedEvt job.id job.status job.current_step
              job.progress_percent]⟩] }
    | none => m
  else m

/-- Modelled from the spec: `broadcast(job_id, event)` delivers the
event to every registered connection for that job id (§4.4). -/
def muxBroadcast (jobId : Nat) (e : ServerEvent) (m : MuxState) : MuxState :=
  { conns := m.conns.map fun c =>
      if c.jobId = jobId then { c with sent := c.sent ++ [e] } else c }

theorem head?_append_some {α : Type} {l l' : List α} {a : α}
    (h : l.head? = some a) : (l ++ l').head? = some a := by
  cases l <;> simp_all

theorem broadcastFold_preserves {cev : ServerEvent} {connId : Nat}
    (evs : List (Nat × ServerEvent)) (m : MuxState)
    (h : ∀ c ∈ m.conns, c.connId = connId → c.sent.head? = some cev) :
    ∀ c ∈ (evs.foldl (fun mm pe => muxBroadcast pe.1 pe.2 mm) m).conns,
      c.connId = connId → c.sent.head? = some cev := by
  induction evs generalizing m with
  | nil => simpa using h
  | cons pe rest ih =>
    simp only [List.foldl_cons]
    apply ih
    intro c hc hid
    simp only [muxBroadcast, List.mem_map] at hc
    obtain ⟨c0, hc0, heq⟩ := hc
    by_cases hj : c0.jobId = pe.1
    · rw [if_pos hj] at heq
      subst heq
      exact head?_append_some (h c0 hc0 hid)
    · rw [if_neg hj] at heq
      subst heq
      exact h c0 hc0 hid

/-- C9: a successful authorized `connect(job_id, ...)` registers the
connection and immediately sends it a Connected event whose fields are
exactly the Job store's snapshot at that instant; after any sequence of
subsequent broker-relayed broadcasts, the first event that connection
ever received is still that Connected snapshot event — the snapshot
precedes every relayed event. -/
theorem connect_sends_snapshot_first :
    ∀ (store : Nat → Option JobRecord) (jobId connId : Nat) (m : MuxState)
      (job : JobRecord) (evs : List (Nat × ServerEvent)),
      store jobId = some job →
      (∀ c ∈ m.conns, c.connId ≠ connId) →
      (∃ c ∈ (muxConnect store true jobId connId m).conns,
        c.connId = connId ∧
          c.sent = [ServerEvent.connectedEvt job.id job.status job.current_step
            job.progress_percent]) ∧
      (∀ c ∈ (evs.foldl (fun mm pe => muxBroadcast pe.1 pe.2 mm)
          (muxConnect store true jobId connId m)).conns,
        c.connId = connId →
          c.sent.head? = some (ServerEvent.connectedEvt job.id job.status
            job.current_step job.progress_percent)) := by
  intro store jobId connId m job evs hstore hfresh
  have hconns : (muxConnect store true jobId connId m).conns =
      m.conns ++ [⟨connId, jobId,
        [ServerEvent.connectedEvt job.id job.status job.current_step
          job.progress_percent]⟩] := by
    simp [muxConnect, hstore]
  constructor
  · refine ⟨⟨connId, jobId,
      [ServerEvent.connectedEvt job.id job.status job.current_step
        job.progress_percent]⟩, ?_, rfl, rfl⟩
    rw [hconns]
    exact List.mem_append_right _ (by simp)
  · apply broadcastFold_preserves
    intro c hc hid
    rw [hconns] at hc
    rcases List.mem_append.mp hc with hc | hc
    · exact absurd hid (hfresh c hc)
    · simp only [List.mem_singleton] at hc
      subst hc
      rfl

/-- Witness for C9 at a concrete input: a store holding job 7 (running,
synthesis, 45%), a fresh empty registry, and one relayed broadcast — the
new connection's first event is the Connected snapshot. -/
theorem connect_sends_snapshot_first_witness :
    (∃ c ∈ (muxConnect
        (fun n => if n = 7 then some ⟨7, "running", some "synthesis", 45⟩ else none)
        true 7 1 ⟨[]⟩).conns,
      c.connId = 1 ∧
        c.sent = [ServerEvent.connectedEvt 7 "running" (some "synthesis") 45]) ∧
    (∀ c ∈ ([((7 : Nat), ServerEvent.relayedEvt "log line")].foldl
        (fun mm pe => muxBroadcast pe.1 pe.2 mm)
        (muxConnect
          (fun n => if n = 7 then some ⟨7, "running", some "synthesis", 45⟩ else none)
          true 7 1 ⟨[]⟩)).conns,
      c.connId = 1 →
        c.sent.head? = some (ServerEvent.connectedEvt 7 "running" (some "synthesis") 45)) :=
  connect_sends_snapshot_first
    (fun n => if n = 7 then some ⟨7, "running", some "synthesis", 45⟩ else none)
    7 1 ⟨[]⟩ ⟨7, "running", some "synthesis", 45⟩
    [((7 : Nat), ServerEvent.relayedEvt "log line")]
    (by decide) (by simp)
